import Mathlib

/-!
# Verification of the Schengen Appointment Checker

A shallow embedding, in Lean 4, of the data model and operations of the
`SchengenAppointmentChecker` React component
(`src/SchengenAppointmentChecker.tsx`, together with the month-grid helper
`buildMonthGrid` that appears in the defensive variant of the component).

JavaScript runtime values flowing through the component are untyped JSON
(`any`); they are modelled by the inductive `JsonValue` below.  A possibly
`undefined` JavaScript value is modelled as `Option JsonValue` (`none` is
`undefined`, `some .null` is JavaScript `null`).  JavaScript property access on
`null`/`undefined` throws a `TypeError`; computations that can throw are
modelled in `Except Unit`.  React `useState` state is collected into an
explicit `AppState` record and every handler is a function on it; network I/O
is modelled by passing the outcome of the `fetch` call as an oracle argument.
-/

set_option linter.unusedVariables false

/-- Untyped JSON runtime values (the `any`-typed data the component handles).
JavaScript `undefined` is not a constructor here: an absent value is
represented as `none : Option JsonValue` where it can occur. -/
inductive JsonValue where
  | null
  | bool (b : Bool)
  | num (n : Int)
  | str (s : String)
  | arr (elems : List JsonValue)
  | obj (fields : List (String × JsonValue))
deriving Repr, Inhabited

/-- A JavaScript value that may also be `undefined` (`none`). -/
abbrev JsVal := Option JsonValue

/-- JavaScript truthiness of a defined value (`NaN` is not modelled; numbers
are integers here). -/
def truthyJ : JsonValue → Bool
  | .null => false
  | .bool b => b
  | .num n => n != 0
  | .str s => s != ""
  | .arr _ => true
  | .obj _ => true

/-- JavaScript truthiness, with `undefined` falsy. -/
def truthy : JsVal → Bool
  | none => false
  | some j => truthyJ j

/-- JavaScript `a || b`: the left operand when truthy, otherwise the right. -/
def jsOr (a b : JsVal) : JsVal := if truthy a then a else b

/-- Property access `v.k` on a value that is not `null`/`undefined`: the field
of an object when present, `undefined` otherwise (as in JavaScript, where
property access on primitives and arrays yields `undefined` for these names).
Access on `null` is handled at the call sites that can encounter it. -/
def JsonValue.get? : JsonValue → String → JsVal
  | .obj fields, k => fields.lookup k
  | _, _ => none

/-- `Array.isArray(v.k) && v.k` reduced to its useful content: the element
list when the field `k` holds an array. -/
def JsonValue.arrField? (v : JsonValue) (k : String) : Option (List JsonValue) :=
  match v.get? k with
  | some (.arr xs) => some xs
  | _ => none

/-- The operand `Array.isArray(c.k) && c.k[0]` of a `||` chain.  When the field
is not an array the operand is `false`; when the array is empty, indexing gives
`undefined`.  Both are falsy, so modelling them as `none` is faithful inside a
`||` chain (a falsy operand is never the selected value). -/
def JsonValue.arrHead? (v : JsonValue) (k : String) : JsVal :=
  match v.arrField? k with
  | some (x :: _) => some x
  | _ => none

mutual

/-- `String(v)` coercion used when a JSON value is used as an object key or
rendered.  Arrays stringify by joining their elements with `","`, with `null`
elements contributing the empty string, per `Array.prototype.toString`. -/
def jsToString : JsonValue → String
  | .null => "null"
  | .bool b => if b then "true" else "false"
  | .num n => toString n
  | .str s => s
  | .arr xs => String.intercalate "," (jsElemStrings xs)
  | .obj _ => "[object Object]"

/-- Element stringification of `Array.prototype.join`. -/
def jsElemStrings : List JsonValue → List String
  | [] => []
  | x :: xs =>
    (match x with
     | .null => ""
     | v => jsToString v) :: jsElemStrings xs

end

/-- `sub` is a prefix of the second list. -/
def charsStartWith : List Char → List Char → Bool
  | [], _ => true
  | _ :: _, [] => false
  | a :: as, b :: bs => a == b && charsStartWith as bs

/-- `sub` occurs contiguously somewhere in the second list. -/
def charsContain (sub : List Char) : List Char → Bool
  | [] => sub.isEmpty
  | c :: rest => charsStartWith sub (c :: rest) || charsContain sub rest

/-- JavaScript `String.prototype.includes`: substring containment. -/
def strIncludes (s sub : String) : Bool := charsContain sub.data s.data

/-- JavaScript `String.prototype.toLowerCase` (character-wise lowercasing). -/
def strToLower (s : String) : String := ⟨s.data.map Char.toLower⟩

/-! ## Slot summaries (`extractSummaryFromSlotsData`) -/

/-- One city/centre row produced by `extractSummaryFromSlotsData`.  The TS type
declares `name : string`, `nextDate : string | null`, `allDates : string[]`,
but the values actually flowing in are whatever the `||` fallback chains
select from the untyped API record, so the fields are modelled as JS values. -/
structure City where
  name : JsVal
  nextDate : JsVal
  allDates : List JsonValue
deriving Repr, Inhabited

/-- Result of `extractSummaryFromSlotsData` (the `Omit<SlotSummary, "raw">`). -/
structure Summary where
  nextDate : JsVal
  cities : List City
  isAvailable : Bool
deriving Repr, Inhabited

/-- A stored `SlotSummary` (summary plus the raw API payload). -/
structure SlotSummary where
  nextDate : JsVal
  isAvailable : Bool
  cities : List City
  raw : JsonValue
deriving Repr, Inhabited

/-- The city-mapping body shared verbatim by the three branches of
`extractSummaryFromSlotsData`:

```
const name = c.centre_name_fe || c.centre_name || c.cityName || c.name || c.city || "-";
const primaryDate = c.earliest_date || (isArray(c.actual_dates) && c.actual_dates[0])
  || (isArray(c.all_dates) && c.all_dates[0]) || c.nextDate || c.firstAvailable || null;
const allDates = (isArray(c.actual_dates) && c.actual_dates)
  || (isArray(c.all_dates) && c.all_dates) || [];
```

Property access on a `null` element throws a `TypeError` (modelled as
`.error ()`), which propagates out of `extractSummaryFromSlotsData` (it has no
`try`/`catch` of its own). -/
def cityOfJson (c : JsonValue) : Except Unit City :=
  match c with
  | .null => .error ()
  | _ => .ok
      { name := jsOr (c.get? "centre_name_fe") (jsOr (c.get? "centre_name")
          (jsOr (c.get? "cityName") (jsOr (c.get? "name")
            (jsOr (c.get? "city") (some (.str "-"))))))
        nextDate := jsOr (c.get? "earliest_date") (jsOr (c.arrHead? "actual_dates")
          (jsOr (c.arrHead? "all_dates") (jsOr (c.get? "nextDate")
            (jsOr (c.get? "firstAvailable") (some .null)))))
        allDates :=
          match c.arrField? "actual_dates" with
          | some xs => xs
          | none =>
            match c.arrField? "all_dates" with
            | some ys => ys
            | none => [] }

/-- `(cities.find((c) => c.nextDate) || {}).nextDate`: the `nextDate` of the
first city whose `nextDate` is truthy, `undefined` when there is none. -/
def firstCityDate (cities : List City) : JsVal :=
  match cities.find? (fun c => truthy c.nextDate) with
  | some c => c.nextDate
  | none => none

/-- A JSON value viewed as an array, for `Object.values(data).filter(Array.isArray)`. -/
def JsonValue.asArray : JsonValue → Option (List JsonValue)
  | .arr xs => some xs
  | _ => none

/-- `extractSummaryFromSlotsData` from `src/SchengenAppointmentChecker.tsx`
(lines 233-317).  Branches in source order: falsy input; object with an
array-valued `centre_dates`; top-level array; object with a `"not available"`
message; object with some array-valued field (`Object.values(...).filter
(Array.isArray)`, first hit); otherwise the initial empty result.
`isAvailable` is `!!cities.length` in every branch that builds cities. -/
def extractSummaryFromSlotsData (data : JsonValue) : Except Unit Summary :=
  if truthyJ data = false then .ok ⟨some .null, [], false⟩
  else
    match data.get? "centre_dates" with
    | some (.arr centreDates) => do
        let cities ← centreDates.mapM cityOfJson
        let nextDate := jsOr (data.get? "earliest_available_date")
          (jsOr (firstCityDate cities) (some .null))
        .ok ⟨nextDate, cities, !cities.isEmpty⟩
    | _ =>
      match data with
      | .arr elems => do
          let cities ← elems.mapM cityOfJson
          .ok ⟨jsOr (firstCityDate cities) (some .null), cities, !cities.isEmpty⟩
      | _ =>
        if (match data.get? "message" with
            | some (.str m) => strIncludes (strToLower m) "not available"
            | _ => false) then
          .ok ⟨some .null, [], false⟩
        else
          match data with
          | .obj fields =>
            match (fields.map Prod.snd).filterMap JsonValue.asArray with
            | [] => .ok ⟨some .null, [], false⟩
            | arr :: _ => do
                let cities ← arr.mapM cityOfJson
                .ok ⟨jsOr (firstCityDate cities) (some .null), cities, !cities.isEmpty⟩
          | _ => .ok ⟨some .null, [], false⟩

example : extractSummaryFromSlotsData .null = .ok ⟨some .null, [], false⟩ := rfl

example :
    extractSummaryFromSlotsData (.obj [("message", .str "Slots Not Available now")]) =
      .ok ⟨some .null, [], false⟩ := rfl

example :
    extractSummaryFromSlotsData
        (.obj [("centre_dates", .arr [.obj [("centre_name", .str "Delhi"),
          ("earliest_date", .str "2025-12-15")]])]) =
      .ok ⟨some (.str "2025-12-15"),
        [⟨some (.str "Delhi"), some (.str "2025-12-15"), []⟩], true⟩ := rfl

/-- A successful lookup in an association list exhibits a member pair. -/
theorem lookup_mem_pair {β : Type} {l : List (String × β)} {k : String} {b : β}
    (h : l.lookup k = some b) : (k, b) ∈ l := by
  rcases List.lookup_eq_some_iff.mp h with ⟨l₁, l₂, rfl, -⟩
  simp

/-- C3: an input matching none of the recognized shapes — `null`/`undefined`,
or an object with no array-valued `centre_dates`, no `"not available"`
message, and no array-valued field at all — yields the empty summary
`{ nextDate: null, cities: [], isAvailable: false }`. -/
theorem extractSummary_unrecognized_empty (d : JsonValue)
    (h : d = .null ∨ ∃ fields, d = .obj fields ∧
        (∀ xs, d.get? "centre_dates" ≠ some (.arr xs)) ∧
        (∀ m, d.get? "message" = some (.str m) →
          strIncludes (strToLower m) "not available" = false) ∧
        (∀ p ∈ fields, ∀ xs, p.2 ≠ JsonValue.arr xs)) :
    extractSummaryFromSlotsData d = .ok ⟨some .null, [], false⟩ := by
  rcases h with rfl | ⟨fields, rfl, hcd, hmsg, hnoarr⟩
  · rfl
  · have hvals : (fields.map Prod.snd).filterMap JsonValue.asArray = [] := by
      rw [List.filterMap_eq_nil_iff]
      intro v hv
      rcases List.mem_map.mp hv with ⟨p, hp, rfl⟩
      cases hp2 : p.2 <;> simp [JsonValue.asArray]
      exact absurd hp2 (hnoarr p hp _)
    unfold extractSummaryFromSlotsData
    rw [if_neg (by simp [truthyJ])]
    rcases hcdl : (JsonValue.obj fields).get? "centre_dates" with _ | v
    all_goals try cases v
    all_goals try exact absurd hcdl (hcd _)
    all_goals rcases hml : (JsonValue.obj fields).get? "message" with _ | w
    all_goals try cases w
    all_goals simp [hvals]

/-- `Except` bind on an `ok` value reduces to the continuation. -/
theorem exceptBind_ok {α β : Type} (a : α) (f : α → Except Unit β) :
    ((Except.ok a : Except Unit α) >>= f) = f a := rfl

/-- `Except` bind on an `error` propagates the error. -/
theorem exceptBind_error {α β : Type} (e : Unit) (f : α → Except Unit β) :
    ((Except.error e : Except Unit α) >>= f) = Except.error e := rfl

/-- Each city-building branch of `extractSummaryFromSlotsData` finishes with
`isAvailable := !cities.isEmpty`, so its result satisfies the availability
invariant whatever `nextDate` it computes. -/
theorem mapM_avail_aux {L : List JsonValue} {nd : List City → JsVal} {s : Summary}
    (h : (L.mapM cityOfJson >>= fun cities =>
        Except.ok (⟨nd cities, cities, !cities.isEmpty⟩ : Summary)) = .ok s) :
    s.isAvailable = true ↔ s.cities ≠ [] := by
  rcases hm : L.mapM cityOfJson with e | cities
  · rw [hm, exceptBind_error] at h
    exact Except.noConfusion h
  · rw [hm, exceptBind_ok] at h
    obtain rfl := (Except.ok.inj h).symm
    cases cities <;> simp

/-- C9: whenever `extractSummaryFromSlotsData` returns a summary (does not
throw), `isAvailable` is true exactly when the `cities` list is non-empty:
every branch sets `isAvailable = !!cities.length`. -/
theorem extractSummary_isAvailable_iff_cities (d : JsonValue) (s : Summary)
    (h : extractSummaryFromSlotsData d = .ok s) :
    s.isAvailable = true ↔ s.cities ≠ [] := by
  unfold extractSummaryFromSlotsData at h
  split at h
  · cases h; simp
  · split at h
    · exact mapM_avail_aux h
    · split at h
      · exact mapM_avail_aux h
      · split at h
        · cases h; simp
        · split at h
          · split at h
            · cases h; simp
            · exact mapM_avail_aux h
          · cases h; simp

/-! ## Countries, demo fallbacks, and component state -/

/-- The TS `Country` record (`code`, `name`, `__raw`, `availableSummary`).
`DEMO_COUNTRIES` entries carry no `__raw`/`availableSummary` (undefined). -/
structure Country where
  code : String
  name : String
  __raw : JsVal
  availableSummary : JsVal
deriving Repr, Inhabited

/-- `DEMO_COUNTRIES` (lines 8-12). -/
def DEMO_COUNTRIES : List Country :=
  [⟨"FR", "France", none, none⟩, ⟨"CH", "Switzerland", none, none⟩,
   ⟨"DE", "Germany", none, none⟩]

/-- A demo city row: all fields are string-valued. -/
def demoCity (n nd : String) (ds : List String) : City :=
  ⟨some (.str n), some (.str nd), ds.map JsonValue.str⟩

/-- `DEMO_SLOTS` (lines 14-57), keyed by country code. -/
def DEMO_SLOTS : List (String × SlotSummary) :=
  [("FR", ⟨some (.str "December 15, 2025"), true,
      [demoCity "Ahmedabad" "December 15, 2025"
          ["December 15, 2025", "December 16, 2025", "December 17, 2025"],
       demoCity "Bangalore" "December 15, 2025"
          ["December 15, 2025", "December 18, 2025"]],
      .obj [("note", .str "Demo slots for France used because API could not be reached.")]⟩),
   ("CH", ⟨some (.str "December 15, 2025"), true,
      [demoCity "Ahmedabad" "December 15, 2025"
          ["December 15, 2025", "December 20, 2025"],
       demoCity "Bangalore" "December 15, 2025"
          ["December 15, 2025", "December 22, 2025"]],
      .obj [("note", .str "Demo slots for Switzerland used because API could not be reached.")]⟩)]

/-- The collected `useState` hooks of the component, in declaration order
(lines 74-86).  `lastUpdatedAt` (a `Date`) is modelled as an opaque tick. -/
structure AppState where
  countries : List Country
  filtered : List Country
  query : String
  selectedCountry : Option Country
  slotsByCountry : List (String × SlotSummary)
  loadingCountryCodes : Bool
  loadingSlots : String
  error : Option String
  countriesRawDebug : JsVal
  offlineMode : Bool
  lastUpdatedAt : Option Nat
  selectedCityIndex : Nat
  selectedDate : Option String
deriving Repr, Inhabited

/-- The initial state of all `useState` hooks. -/
def initialState : AppState :=
  { countries := [], filtered := [], query := "", selectedCountry := none,
    slotsByCountry := [], loadingCountryCodes := false, loadingSlots := "",
    error := none, countriesRawDebug := some .null, offlineMode := false,
    lastUpdatedAt := none, selectedCityIndex := 0, selectedDate := none }

/-- An HTTP request issued through `fetch` (always `GET` here). -/
structure HttpRequest where
  method : String
  url : String
deriving Repr, DecidableEq, Inhabited

/-- The component constants (lines 88-90). -/
def residence : String := "IN"

/-- Citizenship constant. -/
def citizenship : String := "IN"

/-- Pincode constant. -/
def pincode : String := "110001"

/-! ## `fetchCountries` -/

/-- The raw-record normalization of `fetchCountries` (lines 137-150), before
any typing: `code` and `name` are whatever the `||` chains select.  Property
access on a `null` list element throws (caught by the surrounding `try`,
which then falls back to demo data). -/
structure RawCountry where
  code : JsVal
  name : JsVal
  rawRecord : JsonValue
deriving Repr, Inhabited

/-- `list.map((c) => ({ code: c.code || c.iso2_code || c.countryCode || c.alpha2
|| c.iso2 || c.iso || c.country_code || "", name: c.name || c.countryName ||
c.label || c.title || "Unknown", __raw: c, availableSummary: null }))`. -/
def mapCountryRaw (c : JsonValue) : Except Unit RawCountry :=
  match c with
  | .null => .error ()
  | _ => .ok
      { code := jsOr (c.get? "code") (jsOr (c.get? "iso2_code") (jsOr (c.get? "countryCode")
          (jsOr (c.get? "alpha2") (jsOr (c.get? "iso2") (jsOr (c.get? "iso")
            (jsOr (c.get? "country_code") (some (.str ""))))))))
        name := jsOr (c.get? "name") (jsOr (c.get? "countryName")
          (jsOr (c.get? "label") (jsOr (c.get? "title") (some (.str "Unknown")))))
        rawRecord := c }

/-- The mapped record as the `Country`-typed state stores it.  The selected
values are strings whenever the API record is well-typed (as the TS `Country`
type records); their string content is taken via the `String(...)` coercion
`jsToString`. -/
def mapCountry (c : JsonValue) : Except Unit Country := do
  let r ← mapCountryRaw c
  .ok { code := jsToString (r.code.getD .null), name := jsToString (r.name.getD .null),
        __raw := some c, availableSummary := some .null }

/-- List extraction in `fetchCountries` (lines 130-135): a top-level array,
else (for a truthy object) the array under `countries`, else the one under
`data`, else the empty list. -/
def extractCountryList (data : JsonValue) : List JsonValue :=
  match data with
  | .arr xs => xs
  | .obj _ =>
    match data.arrField? "countries" with
    | some xs => xs
    | none =>
      match data.arrField? "data" with
      | some xs => xs
      | none => []
  | _ => []

/-- Outcome of the countries request: an OK response (with `none` standing for
a body that fails to parse, after which `data` stays `null`), a non-OK status
(which the code turns into a thrown `Error`), or a thrown `fetch` exception. -/
inductive CountriesOutcome where
  | ok (body : Option JsonValue)
  | httpError (status : Nat)
  | fetchThrew
deriving Repr, Inhabited

/-- The state update of the `catch`/demo branch of `fetchCountries`. -/
def countriesCatchBlock (st1 : AppState) (now : Nat) : AppState :=
  { st1 with
    offlineMode := true
    error := some "Could not reach Atlys countries API. Showing demo data."
    countries := DEMO_COUNTRIES
    filtered := DEMO_COUNTRIES
    loadingCountryCodes := false
    lastUpdatedAt := some now }

/-- `fetchCountries` (lines 102-165).  `fetchDefined` models
`typeof fetch === "undefined"` being false. -/
def fetchCountries (st : AppState) (fetchDefined : Bool) (outcome : CountriesOutcome)
    (now : Nat) : AppState :=
  let st1 := { st with loadingCountryCodes := true, error := none }
  if fetchDefined = false then
    { st1 with
      offlineMode := true
      countries := DEMO_COUNTRIES
      filtered := DEMO_COUNTRIES
      loadingCountryCodes := false
      error := some "Running in preview mode. Showing demo countries."
      lastUpdatedAt := some now }
  else
    match outcome with
    | .ok body =>
      let data := body.getD .null
      let st2 := { st1 with countriesRawDebug := some data }
      match (extractCountryList data).mapM mapCountry with
      | .ok mapped =>
        { st2 with
          offlineMode := false
          countries := mapped
          filtered := mapped
          loadingCountryCodes := false
          lastUpdatedAt := some now }
      | .error _ => countriesCatchBlock st2 now
    | .httpError _ => countriesCatchBlock st1 now
    | .fetchThrew => countriesCatchBlock st1 now

example :
    (fetchCountries initialState true (.httpError 500) 3).countries = DEMO_COUNTRIES := rfl

example :
    (fetchCountries initialState true
        (.ok (some (.obj [("countries", .arr [.obj [("iso2", .str "AT"),
          ("name", .str "Austria")]])]))) 3).countries =
      [⟨"AT", "Austria", some (.obj [("iso2", .str "AT"), ("name", .str "Austria")]),
        some .null⟩] := rfl

/-! ## `fetchSlotsForCountry` -/

/-- `encodeURIComponent` leaves alphanumerics and `- _ . ! ~ * ' ( )`
unescaped. -/
def isUnescapedURI (c : Char) : Bool :=
  (65 ≤ c.toNat && c.toNat ≤ 90) || (97 ≤ c.toNat && c.toNat ≤ 122) ||
  (48 ≤ c.toNat && c.toNat ≤ 57) ||
  c = '-' || c = '_' || c = '.' || c = '!' || c = '~' || c = '*' ||
  c = Char.ofNat 39 || c = '(' || c = ')'

/-- Upper-case hexadecimal digit for a nibble. -/
def hexDigitChar (n : Nat) : Char :=
  if n < 10 then Char.ofNat (48 + n) else Char.ofNat (55 + n)

/-- Percent-encoding of one byte. -/
def percentByte (b : Nat) : List Char :=
  ['%', hexDigitChar (b / 16), hexDigitChar (b % 16)]

/-- UTF-8 encoding of a character, as byte values. -/
def utf8Bytes (c : Char) : List Nat :=
  let n := c.toNat
  if n < 128 then [n]
  else if n < 2048 then [192 + n / 64, 128 + n % 64]
  else if n < 65536 then [224 + n / 4096, 128 + n / 64 % 64, 128 + n % 64]
  else [240 + n / 262144, 128 + n / 4096 % 64, 128 + n / 64 % 64, 128 + n % 64]

/-- JavaScript `encodeURIComponent` on one character. -/
def encodeChar (c : Char) : List Char :=
  if isUnescapedURI c then [c] else (utf8Bytes c).flatMap percentByte

/-- JavaScript `encodeURIComponent`. -/
def encodeURIComponent (s : String) : String := ⟨s.data.flatMap encodeChar⟩

example : encodeURIComponent "FR" = "FR" := rfl

example : encodeURIComponent "a b/ä" = "a%20b%2F%C3%A4" := rfl

/-- The slots request URL template (lines 194-196). -/
def slotsUrl (countryCode : String) : String :=
  "https://api.atlys.com/api/v2/application/slots/" ++ encodeURIComponent countryCode ++
    ("?residence=" ++ residence ++ "&citizenship=" ++ citizenship ++
      "&purpose=atlys_black&travellersCount=1&withAllSlots=true&getCitiesWiseSlots=true")

/-- Outcome of the slots request, as for `CountriesOutcome`: `ok none` is an
OK response whose body fails to parse as JSON (the inner `catch` leaves
`data = null`). -/
inductive SlotsOutcome where
  | ok (body : Option JsonValue)
  | httpError (status : Nat)
  | fetchThrew
deriving Repr, Inhabited

/-- The spread update `(s) => ({ ...s, [countryCode]: v })`: override the key
in place when present, else append it. -/
def setKey (m : List (String × SlotSummary)) (k : String) (v : SlotSummary) :
    List (String × SlotSummary) :=
  if (m.lookup k).isSome then m.map (fun p => if p.1 = k then (k, v) else p)
  else m ++ [(k, v)]

/-- The demo substitution of the offline branch of `fetchSlotsForCountry`
(lines 174-187): the `DEMO_SLOTS` entry, else an unavailable placeholder. -/
def offlineDemoEntry (cc : String) : SlotSummary :=
  match DEMO_SLOTS.lookup cc with
  | some s => s
  | none => ⟨some .null, false, [],
      .obj [("note", .str "No demo slots configured for this country in offline mode.")]⟩

/-- The demo substitution of the `catch` branch of `fetchSlotsForCountry`
(lines 214-226): the `DEMO_SLOTS` entry, else an unavailable placeholder. -/
def catchDemoEntry (cc : String) : SlotSummary :=
  match DEMO_SLOTS.lookup cc with
  | some s => s
  | none => ⟨some .null, false, [], .obj [("note", .str "No slots available or API unreachable.")]⟩

/-- The `catch` block of `fetchSlotsForCountry` (lines 211-226) followed by
its `finally` block (lines 227-230). -/
def slotsCatchBlock (st1 : AppState) (cc : String) (now : Nat) : AppState :=
  { st1 with
    error := some ("Could not reach Atlys slots API for " ++ cc ++ ".")
    slotsByCountry := setKey st1.slotsByCountry cc (catchDemoEntry cc)
    loadingSlots := ""
    lastUpdatedAt := some now }

/-- `fetchSlotsForCountry` (lines 167-231).  `countryCode : string | undefined
| null` is an `Option String` (`""` is falsy, so it too returns immediately).
Returns the new state together with the HTTP request issued, if any. -/
def fetchSlotsForCountry (st : AppState) (countryCode : Option String)
    (fetchDefined : Bool) (outcome : SlotsOutcome) (now : Nat) :
    AppState × Option HttpRequest :=
  match countryCode with
  | none => (st, none)
  | some cc =>
    if cc = "" then (st, none)
    else if (st.slotsByCountry.lookup cc).isSome then (st, none)
    else
      let st1 := { st with loadingSlots := cc, error := none }
      if st.offlineMode || !fetchDefined then
        ({ st1 with
            slotsByCountry := setKey st1.slotsByCountry cc (offlineDemoEntry cc)
            loadingSlots := ""
            lastUpdatedAt := some now }, none)
      else
        let req : HttpRequest := ⟨"GET", slotsUrl cc⟩
        match outcome with
        | .ok body =>
          let data := body.getD .null
          match extractSummaryFromSlotsData data with
          | .ok summary =>
            ({ st1 with
                slotsByCountry := setKey st1.slotsByCountry cc
                  ⟨summary.nextDate, summary.isAvailable, summary.cities, data⟩
                loadingSlots := ""
                lastUpdatedAt := some now }, some req)
          | .error _ => (slotsCatchBlock st1 cc now, some req)
        | .httpError _ => (slotsCatchBlock st1 cc now, some req)
        | .fetchThrew => (slotsCatchBlock st1 cc now, some req)

/-- Updating an absent key and looking it up finds the new entry. -/
theorem lookup_setKey_of_none {m : List (String × SlotSummary)} {k : String}
    (v : SlotSummary) (h : m.lookup k = none) : (setKey m k v).lookup k = some v := by
  unfold setKey
  rw [if_neg (by simp [h]), List.lookup_append, h]
  simp

/-- C5: for an already-cached country code and for an empty (`undefined`,
`null`, or `""`) code, `fetchSlotsForCountry` returns immediately: no HTTP
request is issued and the state (in particular `slotsByCountry`,
`loadingSlots`, `error`, `lastUpdatedAt`) is unchanged. -/
theorem fetchSlots_skips_cached_and_empty (st : AppState) (countryCode : Option String)
    (fetchDefined : Bool) (outcome : SlotsOutcome) (now : Nat)
    (h : countryCode = none ∨ countryCode = some "" ∨
      ∃ cc e, countryCode = some cc ∧ st.slotsByCountry.lookup cc = some e) :
    fetchSlotsForCountry st countryCode fetchDefined outcome now = (st, none) := by
  rcases h with rfl | rfl | ⟨cc, e, rfl, he⟩
  · rfl
  · rfl
  · unfold fetchSlotsForCountry
    dsimp only
    by_cases hc : cc = ""
    · rw [if_pos hc]
    · rw [if_neg hc, if_pos (by simp [he])]

/-- Witness for C5 at a concrete cached entry. -/
theorem fetchSlots_skips_cached_and_empty_witness :
    ((some "FR" = (none : Option String) ∨ some "FR" = some "" ∨
        ∃ cc e, some "FR" = some cc ∧
          ({ initialState with slotsByCountry := [("FR", offlineDemoEntry "FR")] } :
            AppState).slotsByCountry.lookup cc = some e) ∧
      fetchSlotsForCountry
          { initialState with slotsByCountry := [("FR", offlineDemoEntry "FR")] }
          (some "FR") true .fetchThrew 0 =
        ({ initialState with slotsByCountry := [("FR", offlineDemoEntry "FR")] }, none)) :=
  ⟨Or.inr (Or.inr ⟨"FR", offlineDemoEntry "FR", rfl, rfl⟩),
    fetchSlots_skips_cached_and_empty _ _ true .fetchThrew 0
      (Or.inr (Or.inr ⟨"FR", offlineDemoEntry "FR", rfl, rfl⟩))⟩

/-- C2: whenever the countries request fails (the fetch throws, or the non-OK
status is turned into a thrown `Error`), `fetchCountries` sets both the
country list and the filtered list to `DEMO_COUNTRIES`, switches
`offlineMode` on, and sets the advisory error string, keeping the UI usable. -/
theorem fetchCountries_failure_falls_back_to_demo (st : AppState)
    (outcome : CountriesOutcome) (now : Nat)
    (h : outcome = .fetchThrew ∨ ∃ status, outcome = .httpError status) :
    (fetchCountries st true outcome now).countries = DEMO_COUNTRIES ∧
    (fetchCountries st true outcome now).filtered = DEMO_COUNTRIES ∧
    (fetchCountries st true outcome now).offlineMode = true ∧
    (fetchCountries st true outcome now).error =
      some "Could not reach Atlys countries API. Showing demo data." := by
  rcases h with rfl | ⟨status, rfl⟩ <;> exact ⟨rfl, rfl, rfl, rfl⟩

/-- Witness for C2 at a thrown fetch. -/
theorem fetchCountries_failure_falls_back_to_demo_witness :
    ((CountriesOutcome.fetchThrew = .fetchThrew ∨
        ∃ status, CountriesOutcome.fetchThrew = .httpError status) ∧
      ((fetchCountries initialState true .fetchThrew 7).countries = DEMO_COUNTRIES ∧
        (fetchCountries initialState true .fetchThrew 7).filtered = DEMO_COUNTRIES ∧
        (fetchCountries initialState true .fetchThrew 7).offlineMode = true ∧
        (fetchCountries initialState true .fetchThrew 7).error =
          some "Could not reach Atlys countries API. Showing demo data.")) :=
  ⟨Or.inl rfl,
    fetchCountries_failure_falls_back_to_demo initialState .fetchThrew 7 (Or.inl rfl)⟩

/-- C1 as stated is false on the unparsable-body case: for an OK response
whose body fails to parse as JSON, the inner `catch` leaves `data = null`, so
the stored entry is the empty summary with `raw = null` — not the `DEMO_SLOTS`
entry for `"FR"` — and no error string is set. -/
theorem fetchSlots_parse_failure_refutes_demo_substitution :
    ¬ (((fetchSlotsForCountry initialState (some "FR") true (.ok none) 0).1.slotsByCountry.lookup
          "FR" = some (catchDemoEntry "FR")) ∧
        (fetchSlotsForCountry initialState (some "FR") true (.ok none) 0).1.error =
          some "Could not reach Atlys slots API for FR.") := by
  intro h
  have hval : (fetchSlotsForCountry initialState (some "FR") true (.ok none) 0).1.error =
      none := rfl
  rw [hval] at h
  exact Option.noConfusion h.2

/-- C1 (amended): for a fresh, non-empty country code in online mode, a
non-OK status or a thrown exception is caught and the stored slots entry is
substituted with demo data (the `DEMO_SLOTS` entry when one exists, else the
unavailable placeholder) plus the advisory error string; an OK response whose
body fails to parse as JSON is not treated as a failure: the stored entry is
the empty summary with `raw = null` and no error string is set. -/
theorem fetchSlots_failure_handling (st : AppState) (cc : String) (outcome : SlotsOutcome)
    (now : Nat) (hcc : cc ≠ "") (hcache : st.slotsByCountry.lookup cc = none)
    (hoff : st.offlineMode = false) :
    ((outcome = .fetchThrew ∨ ∃ status, outcome = .httpError status) →
      ((fetchSlotsForCountry st (some cc) true outcome now).1.slotsByCountry.lookup cc =
          some (catchDemoEntry cc) ∧
        (fetchSlotsForCountry st (some cc) true outcome now).1.error =
          some ("Could not reach Atlys slots API for " ++ cc ++ "."))) ∧
    (outcome = .ok none →
      ((fetchSlotsForCountry st (some cc) true outcome now).1.slotsByCountry.lookup cc =
          some ⟨some .null, false, [], .null⟩ ∧
        (fetchSlotsForCountry st (some cc) true outcome now).1.error = none)) := by
  constructor
  · rintro (rfl | ⟨status, rfl⟩) <;>
      (unfold fetchSlotsForCountry
       dsimp only
       rw [if_neg hcc, if_neg (by simp [hcache]), if_neg (by simp [hoff])]
       exact ⟨lookup_setKey_of_none _ hcache, rfl⟩)
  · rintro rfl
    unfold fetchSlotsForCountry
    dsimp only
    rw [if_neg hcc, if_neg (by simp [hcache]), if_neg (by simp [hoff])]
    exact ⟨lookup_setKey_of_none _ hcache, rfl⟩

/-- Witness for the amended C1 at a concrete thrown fetch and at a concrete
unparsable body. -/
theorem fetchSlots_failure_handling_witness :
    (("FR" : String) ≠ "" ∧ initialState.slotsByCountry.lookup "FR" = none ∧
        initialState.offlineMode = false) ∧
      ((fetchSlotsForCountry initialState (some "FR") true .fetchThrew 1).1.slotsByCountry.lookup
          "FR" = some (catchDemoEntry "FR") ∧
        (fetchSlotsForCountry initialState (some "FR") true .fetchThrew 1).1.error =
          some ("Could not reach Atlys slots API for " ++ "FR" ++ ".")) ∧
      ((fetchSlotsForCountry initialState (some "FR") true (.ok none) 1).1.slotsByCountry.lookup
          "FR" = some ⟨some .null, false, [], .null⟩ ∧
        (fetchSlotsForCountry initialState (some "FR") true (.ok none) 1).1.error = none) :=
  ⟨⟨by decide, rfl, rfl⟩,
    (fetchSlots_failure_handling initialState "FR" .fetchThrew 1 (by decide) rfl rfl).1
      (Or.inl rfl),
    (fetchSlots_failure_handling initialState "FR" (.ok none) 1 (by decide) rfl rfl).2 rfl⟩

/-- Witness for C3 at the `null` input. -/
theorem extractSummary_unrecognized_empty_witness :
    ((JsonValue.null = JsonValue.null ∨ ∃ fields, JsonValue.null = .obj fields ∧
        (∀ xs, JsonValue.null.get? "centre_dates" ≠ some (.arr xs)) ∧
        (∀ m, JsonValue.null.get? "message" = some (.str m) →
          strIncludes (strToLower m) "not available" = false) ∧
        (∀ p ∈ fields, ∀ xs, p.2 ≠ JsonValue.arr xs)) ∧
      extractSummaryFromSlotsData .null = .ok ⟨some .null, [], false⟩) :=
  ⟨Or.inl rfl, extractSummary_unrecognized_empty .null (Or.inl rfl)⟩

/-- Witness for C9 at a concrete `centre_dates` payload. -/
theorem extractSummary_isAvailable_iff_cities_witness :
    (extractSummaryFromSlotsData
        (.obj [("centre_dates", .arr [.obj [("centre_name", .str "Delhi"),
          ("earliest_date", .str "2025-12-15")]])]) =
      .ok ⟨some (.str "2025-12-15"),
        [⟨some (.str "Delhi"), some (.str "2025-12-15"), []⟩], true⟩ ∧
      ((⟨some (.str "2025-12-15"),
          [⟨some (.str "Delhi"), some (.str "2025-12-15"), []⟩], true⟩ : Summary).isAvailable =
          true ↔
        (⟨some (.str "2025-12-15"),
          [⟨some (.str "Delhi"), some (.str "2025-12-15"), []⟩], true⟩ : Summary).cities ≠ [])) :=
  ⟨rfl, extractSummary_isAvailable_iff_cities
    (.obj [("centre_dates", .arr [.obj [("centre_name", .str "Delhi"),
      ("earliest_date", .str "2025-12-15")]])])
    ⟨some (.str "2025-12-15"), [⟨some (.str "Delhi"), some (.str "2025-12-15"), []⟩], true⟩
    rfl⟩

/-! ## Search filtering (`onSearch`) -/

/-- The match predicate of `onSearch` (lines 337-341):
`(c.name || "").toLowerCase().includes(lq) || (c.code || "").toLowerCase().includes(lq)`
with `lq = q.toLowerCase()` (the fields are `string`-typed, so `x || ""` is
`x`). -/
def matchesQuery (q : String) (c : Country) : Bool :=
  strIncludes (strToLower c.name) (strToLower q) ||
    strIncludes (strToLower c.code) (strToLower q)

/-- `onSearch` (lines 333-342). -/
def onSearch (st : AppState) (q : String) : AppState :=
  let st1 := { st with query := q }
  if q = "" then { st1 with filtered := st1.countries }
  else { st1 with filtered := st1.countries.filter (matchesQuery q) }

/-- The empty substring is contained in every string. -/
theorem charsContain_nil (l : List Char) : charsContain [] l = true := by
  cases l <;> simp [charsContain, charsStartWith]

/-- C4: `onSearch` sets the filtered list to exactly the countries whose name
or code contains the query as a case-insensitive substring, and the empty
query restores the full country list. -/
theorem onSearch_filters_by_substring (st : AppState) (q : String) :
    (∀ c, c ∈ (onSearch st q).filtered ↔ c ∈ st.countries ∧ matchesQuery q c = true) ∧
    (q = "" → (onSearch st q).filtered = st.countries) := by
  constructor
  · intro c
    unfold onSearch
    by_cases hq : q = ""
    · subst hq
      rw [if_pos rfl]
      have : matchesQuery "" c = true := by
        have h0 : (strToLower "").data = [] := rfl
        unfold matchesQuery strIncludes
        rw [h0, charsContain_nil]
        simp
      simp [this]
    · rw [if_neg hq]
      simp [List.mem_filter]
  · intro hq
    subst hq
    rw [onSearch, if_pos rfl]

/-- Witness for C4 on the demo countries with query `"fr"`. -/
theorem onSearch_filters_by_substring_witness :
    (∀ c, c ∈ (onSearch { initialState with countries := DEMO_COUNTRIES } "fr").filtered ↔
        c ∈ ({ initialState with countries := DEMO_COUNTRIES } : AppState).countries ∧
          matchesQuery "fr" c = true) ∧
      ("fr" = "" →
        (onSearch { initialState with countries := DEMO_COUNTRIES } "fr").filtered =
          ({ initialState with countries := DEMO_COUNTRIES } : AppState).countries) :=
  onSearch_filters_by_substring { initialState with countries := DEMO_COUNTRIES } "fr"

example :
    (onSearch { initialState with countries := DEMO_COUNTRIES } "fr").filtered =
      [⟨"FR", "France", none, none⟩] := rfl

example :
    (onSearch { initialState with countries := DEMO_COUNTRIES } "LAND").filtered =
      [⟨"CH", "Switzerland", none, none⟩] := rfl

/-! ## Country-record normalization (the `fetchCountries` mapping) -/

/-- A right-nested `||` fallback chain over field names, ending in a default
literal: `c.k1 || c.k2 || ... || dflt`. -/
def chainOf (c : JsonValue) (keys : List String) (dflt : JsonValue) : JsVal :=
  match keys with
  | [] => some dflt
  | k :: ks => jsOr (c.get? k) (chainOf c ks dflt)

/-- The claim-side reading of "the first present of the fields": the first
listed key whose value is present and truthy (JavaScript `||` treats a
present-but-falsy value — `""`, `0`, `false`, `null` — like an absent one),
else the default. -/
def firstTruthyField (c : JsonValue) (keys : List String) (dflt : JsonValue) : JsonValue :=
  match keys.find? (fun k => truthy (c.get? k)) with
  | some k => (c.get? k).getD .null
  | none => dflt

/-- A `||` fallback chain selects exactly the first present-and-truthy field,
else its default. -/
theorem chainOf_eq_firstTruthyField (c : JsonValue) (keys : List String) (dflt : JsonValue) :
    chainOf c keys dflt = some (firstTruthyField c keys dflt) := by
  induction keys with
  | nil => rfl
  | cons k ks ih =>
    unfold chainOf firstTruthyField jsOr
    rw [List.find?_cons]
    by_cases hk : truthy (c.get? k) = true
    · rw [if_pos hk, hk]
      rcases hv : c.get? k with _ | v
      · rw [hv] at hk
        exact absurd hk (by simp [truthy])
      · simp [hv]
    · have hk2 : truthy (c.get? k) = false := by
        cases htr : truthy (c.get? k)
        · rfl
        · exact absurd htr hk
      rw [if_neg hk, hk2]
      exact ih

/-- C8: for every record of the extracted country list (top-level array, or
the array under `countries` or `data`), the mapping normalizes it to the
fixed internal shape: `code` is the first present (truthy) of `code`,
`iso2_code`, `countryCode`, `alpha2`, `iso2`, `iso`, `country_code`, else
`""`; `name` is the first present of `name`, `countryName`, `label`, `title`,
else `"Unknown"`; and the raw record is kept. -/
theorem mapCountry_normalizes_fields (data c : JsonValue) (r : RawCountry)
    (hc : c ∈ extractCountryList data) (h : mapCountryRaw c = .ok r) :
    r.code = some (firstTruthyField c
        ["code", "iso2_code", "countryCode", "alpha2", "iso2", "iso", "country_code"]
        (.str "")) ∧
    r.name = some (firstTruthyField c ["name", "countryName", "label", "title"]
        (.str "Unknown")) ∧
    r.rawRecord = c := by
  have hcode := chainOf_eq_firstTruthyField c
    ["code", "iso2_code", "countryCode", "alpha2", "iso2", "iso", "country_code"] (.str "")
  have hname := chainOf_eq_firstTruthyField c ["name", "countryName", "label", "title"]
    (.str "Unknown")
  cases c with
  | null => exact Except.noConfusion h
  | bool b =>
    obtain rfl := (Except.ok.inj h).symm
    exact ⟨hcode, hname, rfl⟩
  | num n =>
    obtain rfl := (Except.ok.inj h).symm
    exact ⟨hcode, hname, rfl⟩
  | str s =>
    obtain rfl := (Except.ok.inj h).symm
    exact ⟨hcode, hname, rfl⟩
  | arr xs =>
    obtain rfl := (Except.ok.inj h).symm
    exact ⟨hcode, hname, rfl⟩
  | obj fields =>
    obtain rfl := (Except.ok.inj h).symm
    exact ⟨hcode, hname, rfl⟩

/-- Witness for C8 at a concrete `countries`-wrapped payload whose record
carries `iso2` and `countryName` fields. -/
theorem mapCountry_normalizes_fields_witness :
    ((JsonValue.obj [("iso2", .str "AT"), ("countryName", .str "Austria")]) ∈
        extractCountryList (.obj [("countries", .arr
          [.obj [("iso2", .str "AT"), ("countryName", .str "Austria")]])]) ∧
      mapCountryRaw (.obj [("iso2", .str "AT"), ("countryName", .str "Austria")]) =
        .ok ⟨some (.str "AT"), some (.str "Austria"),
          .obj [("iso2", .str "AT"), ("countryName", .str "Austria")]⟩) ∧
    ((⟨some (.str "AT"), some (.str "Austria"),
        .obj [("iso2", .str "AT"), ("countryName", .str "Austria")]⟩ : RawCountry).code =
        some (firstTruthyField (.obj [("iso2", .str "AT"), ("countryName", .str "Austria")])
          ["code", "iso2_code", "countryCode", "alpha2", "iso2", "iso", "country_code"]
          (.str "")) ∧
      (⟨some (.str "AT"), some (.str "Austria"),
        .obj [("iso2", .str "AT"), ("countryName", .str "Austria")]⟩ : RawCountry).name =
        some (firstTruthyField (.obj [("iso2", .str "AT"), ("countryName", .str "Austria")])
          ["name", "countryName", "label", "title"] (.str "Unknown")) ∧
      (⟨some (.str "AT"), some (.str "Austria"),
        .obj [("iso2", .str "AT"), ("countryName", .str "Austria")]⟩ : RawCountry).rawRecord =
        .obj [("iso2", .str "AT"), ("countryName", .str "Austria")]) :=
  ⟨⟨by simp [extractCountryList, JsonValue.arrField?, JsonValue.get?, List.lookup], rfl⟩,
    mapCountry_normalizes_fields
      (.obj [("countries", .arr [.obj [("iso2", .str "AT"), ("countryName", .str "Austria")]])])
      (.obj [("iso2", .str "AT"), ("countryName", .str "Austria")])
      ⟨some (.str "AT"), some (.str "Austria"),
        .obj [("iso2", .str "AT"), ("countryName", .str "Austria")]⟩
      (by simp [extractCountryList, JsonValue.arrField?, JsonValue.get?, List.lookup]) rfl⟩

/-! ## The slots request URL (claim-side parsing and encoder facts) -/

/-- The path part of a URL: the characters before the first `?`. -/
def urlPath (u : String) : String := ⟨u.data.takeWhile (fun ch => ch != Char.ofNat 63)⟩

/-- The query string of a URL: the characters after the first `?`. -/
def urlQuery (u : String) : String := ⟨(u.data.dropWhile (fun ch => ch != Char.ofNat 63)).drop 1⟩

/-- Split a character list on a separator (no separator yields one group). -/
def splitOnChar (sep : Char) : List Char → List (List Char)
  | [] => [[]]
  | c :: rest =>
    match splitOnChar sep rest with
    | [] => [[]]
    | g :: gs => if c = sep then [] :: g :: gs else (c :: g) :: gs

/-- The parameter names of a query string: each `&`-separated group up to its
first `=`. -/
def queryParamNames (q : String) : List String :=
  (splitOnChar '&' q.data).map (fun g => ⟨g.takeWhile (fun ch => ch != '=')⟩)

example : queryParamNames "a=1&b&c=2" = ["a", "b", "c"] := rfl

/-- Every character code is below the Unicode bound. -/
theorem char_toNat_lt (c : Char) : c.toNat < 1114112 := by
  rcases c.valid with h | ⟨h1, h2⟩
  · exact Nat.lt_trans h (by norm_num)
  · exact h2

/-- UTF-8 encoding produces bytes. -/
theorem utf8Bytes_lt (c : Char) : ∀ b ∈ utf8Bytes c, b < 256 := by
  intro b hb
  have hc := char_toNat_lt c
  unfold utf8Bytes at hb
  dsimp only at hb
  split_ifs at hb <;> simp_all <;> omega

/-- Hexadecimal digits are never `?`. -/
theorem hexDigitChar_ne_qmark (n : Nat) (h : n < 16) : hexDigitChar n ≠ Char.ofNat 63 := by
  interval_cases n <;> decide

/-- `encodeURIComponent` never emits a `?` for a single character. -/
theorem encodeChar_ne_qmark (c : Char) : ∀ x ∈ encodeChar c, x ≠ Char.ofNat 63 := by
  intro x hx
  unfold encodeChar at hx
  split at hx
  · rename_i hu
    simp only [List.mem_singleton] at hx
    subst hx
    intro hq
    rw [hq] at hu
    exact absurd hu (by decide)
  · rw [List.mem_flatMap] at hx
    rcases hx with ⟨b, hb, hxb⟩
    have hblt : b < 256 := utf8Bytes_lt c b hb
    unfold percentByte at hxb
    simp only [List.mem_cons, List.not_mem_nil, or_false] at hxb
    rcases hxb with rfl | rfl | rfl
    · decide
    · exact hexDigitChar_ne_qmark _ (by omega)
    · exact hexDigitChar_ne_qmark _ (by omega)

/-- `encodeURIComponent` output contains no `?`. -/
theorem encodeURIComponent_no_qmark (s : String) :
    ∀ x ∈ (encodeURIComponent s).data, x ≠ Char.ofNat 63 := by
  intro x hx
  have hd : (encodeURIComponent s).data = s.data.flatMap encodeChar := rfl
  rw [hd, List.mem_flatMap] at hx
  rcases hx with ⟨c, hc, hxc⟩
  exact encodeChar_ne_qmark c x hxc

/-- Strings with the same character data are equal. -/
theorem string_eq_of_data (s t : String) (h : s.data = t.data) : s = t := by
  cases s
  cases t
  cases h
  rfl

/-- C7: for a fresh non-empty country code in online mode,
`fetchSlotsForCountry` issues a `GET` whose URL has path
`/application/slots/{countryCode}` with the code URL-encoded, and whose query
carries exactly the parameters `residence`, `citizenship`, `purpose`,
`travellersCount`, `withAllSlots`, `getCitiesWiseSlots`. -/
theorem slots_request_shape (st : AppState) (cc : String) (outcome : SlotsOutcome) (now : Nat)
    (hcc : cc ≠ "") (hcache : st.slotsByCountry.lookup cc = none)
    (hoff : st.offlineMode = false) :
    (fetchSlotsForCountry st (some cc) true outcome now).2 = some ⟨"GET", slotsUrl cc⟩ ∧
    urlPath (slotsUrl cc) =
      "https://api.atlys.com/api/v2/application/slots/" ++ encodeURIComponent cc ∧
    queryParamNames (urlQuery (slotsUrl cc)) =
      ["residence", "citizenship", "purpose", "travellersCount", "withAllSlots",
        "getCitiesWiseSlots"] := by
  have hsuffix : ("?residence=" ++ residence ++ "&citizenship=" ++ citizenship ++
      "&purpose=atlys_black&travellersCount=1&withAllSlots=true&getCitiesWiseSlots=true") =
      ("?residence=IN&citizenship=IN&purpose=atlys_black&travellersCount=1&withAllSlots=true&getCitiesWiseSlots=true" : String) := rfl
  have hurl : slotsUrl cc =
      ("https://api.atlys.com/api/v2/application/slots/" ++ encodeURIComponent cc) ++
        ("?residence=IN&citizenship=IN&purpose=atlys_black&travellersCount=1&withAllSlots=true&getCitiesWiseSlots=true" : String) := by
    unfold slotsUrl
    rw [hsuffix]
  have hfront : ∀ a ∈ ("https://api.atlys.com/api/v2/application/slots/" : String).data ++
      (encodeURIComponent cc).data, (a != Char.ofNat 63) = true := by
    intro a ha
    rw [List.mem_append] at ha
    rcases ha with ha | ha
    · revert ha
      revert a
      decide
    · simpa [bne_iff_ne] using encodeURIComponent_no_qmark cc a ha
  refine ⟨?_, ?_, ?_⟩
  · unfold fetchSlotsForCountry
    dsimp only
    rw [if_neg hcc, if_neg (by simp [hcache]), if_neg (by simp [hoff])]
    cases outcome with
    | ok body =>
      dsimp only
      split <;> rfl
    | httpError status => rfl
    | fetchThrew => rfl
  · apply string_eq_of_data
    rw [hurl]
    unfold urlPath
    dsimp only
    rw [String.data_append, String.data_append,
      List.takeWhile_append_of_pos hfront]
    have hq0 : List.takeWhile (fun ch => ch != Char.ofNat 63)
        ("?residence=IN&citizenship=IN&purpose=atlys_black&travellersCount=1&withAllSlots=true&getCitiesWiseSlots=true" : String).data = [] := rfl
    rw [hq0, List.append_nil, ← String.data_append]
  · have hquery : urlQuery (slotsUrl cc) =
        ("residence=IN&citizenship=IN&purpose=atlys_black&travellersCount=1&withAllSlots=true&getCitiesWiseSlots=true" : String) := by
      apply string_eq_of_data
      rw [hurl]
      unfold urlQuery
      dsimp only
      rw [String.data_append, String.data_append,
        List.dropWhile_append_of_pos hfront]
      rfl
    rw [hquery]
    rfl

/-- Witness for C7 at the code `"FR"` on the initial state. -/
theorem slots_request_shape_witness :
    (("FR" : String) ≠ "" ∧ initialState.slotsByCountry.lookup "FR" = none ∧
        initialState.offlineMode = false) ∧
      ((fetchSlotsForCountry initialState (some "FR") true .fetchThrew 0).2 =
          some ⟨"GET", slotsUrl "FR"⟩ ∧
        urlPath (slotsUrl "FR") =
          "https://api.atlys.com/api/v2/application/slots/" ++ encodeURIComponent "FR" ∧
        queryParamNames (urlQuery (slotsUrl "FR")) =
          ["residence", "citizenship", "purpose", "travellersCount", "withAllSlots",
            "getCitiesWiseSlots"]) :=
  ⟨⟨by decide, rfl, rfl⟩,
    slots_request_shape initialState "FR" .fetchThrew 0 (by decide) rfl rfl⟩

/-! ## Modal data and the "Book This Appointment" handler -/

/-- The inner `obj.__raw && (obj.__raw.iso2_code || obj.__raw.iso2 ||
obj.__raw.code || obj.__raw.countryCode)` operand of `getCountryCode`: a falsy
`__raw` is returned as is (and is then skipped by the outer `||`). -/
def rawCodeChain : JsVal → JsVal
  | none => none
  | some r =>
    if truthyJ r then
      jsOr (r.get? "iso2_code") (jsOr (r.get? "iso2")
        (jsOr (r.get? "code") (r.get? "countryCode")))
    else some r

/-- `getCountryCode` (lines 319-331).  On the typed `Country` record only
`code` and `__raw` exist; the reads of `iso2_code`, `countryCode`, `alpha2`,
`iso` on the record itself give `undefined`. -/
def getCountryCode (c : Country) : JsVal :=
  jsOr (some (.str c.code)) (jsOr none (jsOr (rawCodeChain c.__raw)
    (jsOr none (jsOr none (jsOr none (some (.str "")))))))

/-- `datesForActiveCity.includes(selectedDate)`: strict equality of a string
against the JSON date entries. -/
def datesInclude (dates : List JsonValue) (sd : String) : Bool :=
  dates.any (fun j => match j with | .str s => s == sd | _ => false)

/-- The record computed by the `activeModalData` closure (lines 370-389). -/
structure ModalData where
  code : String
  slot : SlotSummary
  cities : List City
  activeCity : Option City
  datesForActiveCity : List JsonValue
  effectiveSelectedDate : JsVal
deriving Repr, Inhabited

/-- `activeModalData` (lines 370-389): `null` without a selected country or
without a cached slot entry for its code; otherwise the selected city (falling
back to the first), its dates (`allDates` when non-empty, else the singleton
`nextDate`, else none), and the effective selected date (the selection when it
is among the dates, else the first date, else `null`). -/
def activeModalData (st : AppState) : Option ModalData :=
  match st.selectedCountry with
  | none => none
  | some sc =>
    let code := jsToString ((jsOr (getCountryCode sc) (some (.str sc.code))).getD .null)
    match st.slotsByCountry.lookup code with
    | none => none
    | some slot =>
      let cities := slot.cities
      let activeCity :=
        match cities.get? st.selectedCityIndex with
        | some c => some c
        | none => cities.get? 0
      let datesForActiveCity :=
        match activeCity with
        | none => []
        | some c =>
          if !c.allDates.isEmpty then c.allDates
          else
            match c.nextDate with
            | some j => if truthyJ j then [j] else []
            | none => []
      let effectiveSelectedDate :=
        match st.selectedDate with
        | some sd =>
          if sd != "" && datesInclude datesForActiveCity sd then some (.str sd)
          else jsOr datesForActiveCity.head? (some .null)
        | none => jsOr datesForActiveCity.head? (some .null)
      some ⟨code, slot, cities, activeCity, datesForActiveCity, effectiveSelectedDate⟩

/-- The payload of the `console.log` in the "Book This Appointment" click
handler (lines 629-634). -/
structure BookLog where
  country : String
  countryCode : JsVal
  center : JsVal
  date : JsVal
deriving Repr, Inhabited

/-- The "Book This Appointment" click handler (lines 628-637).  The modal (and
with it the button) is rendered only when a country is selected and
`activeModalData` is non-null; the handler body is a single `console.log` of
the selection, so the component state passes through untouched and no request
is issued. -/
def onBookClick (st : AppState) : AppState × List HttpRequest × Option BookLog :=
  match st.selectedCountry, activeModalData st with
  | some sc, some md =>
    (st, [],
      some { country := sc.name
             countryCode := getCountryCode sc
             center :=
               match md.activeCity with
               | some c => c.name
               | none => none
             date := md.effectiveSelectedDate })
  | _, _ => (st, [], none)

/-- C6: the "Book This Appointment" handler only logs: it leaves the whole
component state (countries, slotsByCountry, selection, everything) unchanged
and issues no network request. -/
theorem onBookClick_only_logs (st : AppState) :
    (onBookClick st).1 = st ∧ (onBookClick st).2.1 = [] := by
  unfold onBookClick
  rcases h1 : st.selectedCountry with _ | sc <;>
    rcases h2 : activeModalData st with _ | md <;> exact ⟨rfl, rfl⟩

/-! ## The month grid (`buildMonthGrid`, defensive component variant)

`Date` semantics are modelled for a UTC runtime timezone, where the local-time
accessors (`getFullYear`, `getMonth`, `getDay`, `getDate`) agree with
`toISOString`; date-only ISO strings are parsed as UTC midnight. -/

/-- A civil date in the proleptic Gregorian calendar, with the JS convention
`month` in `0..11` and `day` starting at 1 (years 0-9999). -/
structure CivilDate where
  year : Nat
  month : Nat
  day : Nat
deriving Repr, DecidableEq, Inhabited

/-- Gregorian leap year. -/
def isLeapYear (y : Nat) : Bool := y % 4 = 0 && (y % 100 != 0 || y % 400 = 0)

/-- `new Date(year, month + 1, 0).getDate()`: the number of days of the
(0-based) JS month `m` of year `y`. -/
def daysInMonthJS (y m : Nat) : Nat :=
  if m = 1 then (if isLeapYear y then 29 else 28)
  else if m = 3 || m = 5 || m = 8 || m = 10 then 30
  else 31

/-- Days since 1970-01-01 of a civil date (`m` 1-based here), by the standard
era / year-of-era computation; used for the weekday only. -/
def daysFromCivil (y : Int) (m : Nat) (d : Nat) : Int :=
  let y2 : Int := if m ≤ 2 then y - 1 else y
  let era : Int := Int.fdiv y2 400
  let yoe : Int := y2 - era * 400
  let doy : Int := Int.fdiv (153 * ((m : Int) + (if m > 2 then -3 else 9)) + 2) 5 + ((d : Int) - 1)
  let doe : Int := yoe * 365 + Int.fdiv yoe 4 - Int.fdiv yoe 100 + doy
  era * 146097 + doe - 719468

/-- `getDay()` (0 = Sunday) of a civil date, under UTC. -/
def dayOfWeekJS (y m d : Nat) : Nat :=
  ((daysFromCivil (y : Int) (m + 1) d + 4).emod 7).toNat

example : dayOfWeekJS 1970 0 1 = 4 := rfl

example : dayOfWeekJS 2025 11 1 = 1 := rfl

/-- Weekdays are in `0..6`. -/
theorem dayOfWeekJS_lt (y m d : Nat) : dayOfWeekJS y m d < 7 := by
  unfold dayOfWeekJS
  have h1 : 0 ≤ (daysFromCivil (y : Int) (m + 1) d + 4).emod 7 :=
    Int.emod_nonneg _ (by norm_num)
  have h2 : (daysFromCivil (y : Int) (m + 1) d + 4).emod 7 < 7 :=
    Int.emod_lt_of_pos _ (by norm_num)
  omega

/-- Two-digit zero padding. -/
def pad2 (n : Nat) : String := if n < 10 then "0" ++ toString n else toString n

/-- Four-digit zero padding. -/
def pad4 (n : Nat) : String :=
  if n < 10 then "000" ++ toString n
  else if n < 100 then "00" ++ toString n
  else if n < 1000 then "0" ++ toString n
  else toString n

/-- `toISOString().slice(0, 10)` of a UTC `Date` at the given civil date. -/
def isoOfDate (dt : CivilDate) : String :=
  pad4 dt.year ++ "-" ++ pad2 (dt.month + 1) ++ "-" ++ pad2 dt.day

example : isoOfDate ⟨2025, 11, 15⟩ = "2025-12-15" := rfl

/-- ISO date strings are never empty. -/
theorem isoOfDate_ne_empty (dt : CivilDate) : isoOfDate dt ≠ "" := by
  intro h
  have hd := congrArg String.data h
  simp only [isoOfDate, String.data_append] at hd
  simp at hd

/-- A digit character value. -/
def digit? (c : Char) : Option Nat :=
  if 48 ≤ c.toNat ∧ c.toNat ≤ 57 then some (c.toNat - 48) else none

/-- `new Date(s)` for a date-only ISO string `YYYY-MM-DD` (parsed as UTC
midnight); anything else — including out-of-range components — is an Invalid
Date, modelled as `none`. -/
def parseJsDate (s : String) : Option CivilDate :=
  match s.data with
  | [y1, y2, y3, y4, h1, m1, m2, h2, d1, d2] =>
    if h1 = '-' ∧ h2 = '-' then
      match digit? y1, digit? y2, digit? y3, digit? y4, digit? m1, digit? m2,
        digit? d1, digit? d2 with
      | some a, some b, some c, some d, some e, some f, some g, some h =>
        let year := a * 1000 + b * 100 + c * 10 + d
        let mon := e * 10 + f
        let day := g * 10 + h
        if 1 ≤ mon ∧ mon ≤ 12 ∧ 1 ≤ day ∧ day ≤ daysInMonthJS year (mon - 1) then
          some ⟨year, mon - 1, day⟩
        else none
      | _, _, _, _, _, _, _, _ => none
    else none
  | _ => none

example : parseJsDate "2025-12-15" = some ⟨2025, 11, 15⟩ := rfl

example : parseJsDate "2025-02-30" = none := rfl

/-- `new Date(d).toISOString().slice(0, 10)` with the per-element `catch`
returning `d` itself (used for the available-dates set). -/
def normalizeIso (d : String) : String :=
  match parseJsDate d with
  | some dt => isoOfDate dt
  | none => d

/-- Truthiness of an optional string (`undefined` and `""` are falsy). -/
def truthyStr (o : Option String) : Bool := o.getD "" != ""

/-- `focusedIso || (isoDates && isoDates[0]) || null` (line 135). -/
def selectedOf (isoDates : List String) (focusedIso : Option String) : Option String :=
  if truthyStr focusedIso then focusedIso
  else if truthyStr isoDates.head? then isoDates.head?
  else none

/-- The ISO cells of days `1..daysInMonth` of a month, in order (the values
pushed by the day loop, lines 156-162). -/
def monthCells (y m : Nat) : List String :=
  (List.range (daysInMonthJS y m)).map (fun i => isoOfDate ⟨y, m, i + 1⟩)

/-- The week-chunking loop of `buildMonthGrid` (lines 154-166): starting from
`week = new Array(startDay).fill("")`, push each day cell, flush full weeks of
7, and pad the final partial week with `""`. -/
def chunkWeeks (week : List String) : List String → List (List String)
  | [] => if week.isEmpty then [] else [week ++ List.replicate (7 - week.length) ""]
  | c :: rest =>
    if week.length + 1 = 7 then (week ++ [c]) :: chunkWeeks [] rest
    else chunkWeeks (week ++ [c]) rest

/-- The return value of `buildMonthGrid` (line 168; the JS `Set` is modelled
by its member list, insertion order, duplicates immaterial). -/
structure MonthGrid where
  weeks : List (List String)
  year : Nat
  monthIndex : Nat
  availableSet : List String
  selectedIso : Option String
deriving Repr, Inhabited

/-- `buildMonthGrid` (lines 133-173).  `today` stands for `new Date()` (the
anchor when no date is selected, and the year/month of the `catch` result).
An invalid selected date makes `startDay` NaN, so `new Array(NaN)` throws and
the `catch` returns the empty grid (lines 169-172). -/
def buildMonthGrid (isoDates : List String) (focusedIso : Option String)
    (today : CivilDate) : MonthGrid :=
  let selected := selectedOf isoDates focusedIso
  let avail := isoDates.map normalizeIso
  match selected with
  | none =>
    { weeks := chunkWeeks (List.replicate (dayOfWeekJS today.year today.month 1) "")
        (monthCells today.year today.month)
      year := today.year
      monthIndex := today.month
      availableSet := avail
      selectedIso := none }
  | some s =>
    match parseJsDate s with
    | some a =>
      { weeks := chunkWeeks (List.replicate (dayOfWeekJS a.year a.month 1) "")
          (monthCells a.year a.month)
        year := a.year
        monthIndex := a.month
        availableSet := avail
        selectedIso := some s }
    | none =>
      { weeks := [], year := today.year, monthIndex := today.month,
        availableSet := [], selectedIso := none }

/-- The anchor date `buildMonthGrid` lays out: `today` when nothing is
selected, else the parse of the selected string (`none` = Invalid Date). -/
def anchorOf (isoDates : List String) (focusedIso : Option String)
    (today : CivilDate) : Option CivilDate :=
  match selectedOf isoDates focusedIso with
  | none => some today
  | some s => parseJsDate s

/-- Every week the chunking loop emits has exactly 7 cells. -/
theorem chunkWeeks_mem_length (rest : List String) :
    ∀ week, week.length < 7 → ∀ w ∈ chunkWeeks week rest, w.length = 7 := by
  induction rest with
  | nil =>
    intro week hw w hmem
    unfold chunkWeeks at hmem
    split at hmem
    · simp at hmem
    · simp at hmem
      subst hmem
      simp only [List.length_append, List.length_replicate]
      omega
  | cons c rest ih =>
    intro week hw w hmem
    unfold chunkWeeks at hmem
    split at hmem
    · rename_i h7
      rcases List.mem_cons.mp hmem with rfl | hmem2
      · simp only [List.length_append, List.length_cons, List.length_nil]
        omega
      · exact ih [] (by simp) w hmem2
    · rename_i h7
      exact ih (week ++ [c]) (by simp; omega) w hmem

/-- The concatenation of the chunked weeks is the seed blanks, then the cells,
then the final padding to a multiple of 7. -/
theorem chunkWeeks_join (rest : List String) :
    ∀ week, week.length < 7 →
      (chunkWeeks week rest).flatten =
        week ++ rest ++
          List.replicate ((7 - (week.length + rest.length) % 7) % 7) "" := by
  induction rest with
  | nil =>
    intro week hw
    unfold chunkWeeks
    split
    · rename_i he
      have hwk : week = [] := by simpa using he
      subst hwk
      simp
    · rename_i he
      have hne : week ≠ [] := by simpa using he
      have h0 : 0 < week.length := List.length_pos.mpr hne
      have hc : (7 - (week.length + ([] : List String).length) % 7) % 7 =
          7 - week.length := by
        simp only [List.length_nil, Nat.add_zero]
        omega
      rw [hc]
      simp
  | cons c rest ih =>
    intro week hw
    unfold chunkWeeks
    split
    · rename_i h7
      rw [List.flatten_cons, ih [] (by simp)]
      have hc : (7 - (week.length + (c :: rest).length) % 7) % 7 =
          (7 - (([] : List String).length + rest.length) % 7) % 7 := by
        simp only [List.length_cons, List.length_nil]
        omega
      rw [hc]
      simp [List.append_assoc]
    · rename_i h7
      rw [ih (week ++ [c]) (by simp; omega)]
      have hc : ((week ++ [c]).length + rest.length) = (week.length + (c :: rest).length) := by
        simp only [List.length_append, List.length_cons, List.length_nil]
        omega
      rw [hc]
      simp [List.append_assoc]

/-- C10: with a valid anchor (a parseable selected/first date, or today when
there is none), the month grid consists of weeks of exactly 7 entries whose
concatenation is `startDay` leading blanks, then precisely the (non-empty)
ISO dates of days 1 through `daysInMonth` of the anchor month in order, then
trailing blanks padding the last week. -/
theorem buildMonthGrid_weeks_shape (isoDates : List String) (focusedIso : Option String)
    (today : CivilDate) (a : CivilDate)
    (h : anchorOf isoDates focusedIso today = some a) :
    (∀ w ∈ (buildMonthGrid isoDates focusedIso today).weeks, w.length = 7) ∧
    (buildMonthGrid isoDates focusedIso today).weeks.flatten =
      List.replicate (dayOfWeekJS a.year a.month 1) "" ++ monthCells a.year a.month ++
        List.replicate
          ((7 - (dayOfWeekJS a.year a.month 1 + daysInMonthJS a.year a.month) % 7) % 7) "" ∧
    (∀ s ∈ monthCells a.year a.month, s ≠ "") := by
  have hweeks : (buildMonthGrid isoDates focusedIso today).weeks =
      chunkWeeks (List.replicate (dayOfWeekJS a.year a.month 1) "")
        (monthCells a.year a.month) := by
    unfold buildMonthGrid
    unfold anchorOf at h
    cases hsel : selectedOf isoDates focusedIso with
    | none =>
      rw [hsel] at h
      cases h
      rfl
    | some s =>
      rw [hsel] at h
      dsimp only at h
      dsimp only
      rw [h]
  have hlt : (List.replicate (dayOfWeekJS a.year a.month 1) "").length < 7 := by
    rw [List.length_replicate]
    exact dayOfWeekJS_lt a.year a.month 1
  refine ⟨?_, ?_, ?_⟩
  · rw [hweeks]
    exact chunkWeeks_mem_length _ _ hlt
  · rw [hweeks, chunkWeeks_join _ _ hlt]
    simp [monthCells, List.length_replicate]
  · intro s hs
    rcases List.mem_map.mp hs with ⟨i, hi, rfl⟩
    exact isoOfDate_ne_empty _

/-- Witness for C10 at a one-date list anchored on December 2025. -/
theorem buildMonthGrid_weeks_shape_witness :
    (anchorOf ["2025-12-15"] none ⟨2025, 0, 3⟩ = some ⟨2025, 11, 15⟩) ∧
    ((∀ w ∈ (buildMonthGrid ["2025-12-15"] none ⟨2025, 0, 3⟩).weeks, w.length = 7) ∧
      (buildMonthGrid ["2025-12-15"] none ⟨2025, 0, 3⟩).weeks.flatten =
        List.replicate (dayOfWeekJS 2025 11 1) "" ++ monthCells 2025 11 ++
          List.replicate ((7 - (dayOfWeekJS 2025 11 1 + daysInMonthJS 2025 11) % 7) % 7) "" ∧
      (∀ s ∈ monthCells 2025 11, s ≠ "")) :=
  ⟨rfl, buildMonthGrid_weeks_shape ["2025-12-15"] none ⟨2025, 0, 3⟩ ⟨2025, 11, 15⟩ rfl⟩
